import Mathlib

/-!
Verification of the difficulty-scoring / outlier-detection / correlation /
weight-optimization core of the mental-addition-flow repository.

The TypeScript source is shallowly embedded: JS numbers are modelled as exact
rationals `ℚ` (reals `ℝ` where a square root appears), JS `Set<number>` as
`Finset ℕ`, optional fields as `Option`, and early-`return` loops as
`List.filterMap`. Record fields the embedded code never reads (`userId`,
`evaluationId`, `createdAt`, `scope`, `timedOut`) are omitted from the record
structures.
-/

/-- Little-endian decimal digits as produced by `String(n).split('').reverse()`
followed by `parseInt` on each character: `0` renders as the single digit `[0]`,
any other natural as its base-10 digits, least significant first.
`digitsAux` peels off `n % 10` and recurses on `n / 10`, with a fuel argument
(always sufficient at `n`) to keep the recursion structural. -/
def digitsAux : ℕ → ℕ → List ℕ
  | _, 0 => []
  | 0, _ => []
  | fuel + 1, n + 1 => ((n + 1) % 10) :: digitsAux fuel ((n + 1) / 10)

/-- Decimal digit list of a natural number, least significant digit first,
with `jsDigits 0 = [0]` mirroring `String(0) = "0"`. -/
def jsDigits (n : ℕ) : List ℕ :=
  if n = 0 then [0] else digitsAux n n

/-- Length of `String(n)`, i.e. the number of decimal digits of `n`. -/
def numDigits (n : ℕ) : ℕ := (jsDigits n).length

/-- countTotalDigits from useDifficultyCalculation:
`String(operandA).length + String(operandB).length`. -/
def countTotalDigits (operandA operandB : ℕ) : ℕ :=
  numDigits operandA + numDigits operandB

/-- countZeros from useDifficultyCalculation: the negated total number of `0`
digits appearing in the decimal strings of the two operands. -/
def countZeros (operandA operandB : ℕ) : ℤ :=
  -(((jsDigits operandA).count 0 : ℤ) + ((jsDigits operandB).count 0 : ℤ))

/-- One pass of the grade-school addition loop in countCarryovers: the digit
pairs are consumed least-significant first, a position with digit sum
`≥ 10` increments the counter and sends carry `1` to the next position. -/
def carryZip : List (ℕ × ℕ) → ℕ → ℕ
  | [], _ => 0
  | (da, db) :: rest, carry =>
    let s := da + db + carry
    (if 10 ≤ s then 1 else 0) + carryZip rest (if 10 ≤ s then 1 else 0)

/-- Digit-pair list of the countCarryovers loop: both reversed digit strings are
padded with `'0'` (the `strA[i] || '0'` fallback) up to
`max(strA.length, strB.length)` and walked in lockstep. -/
def padZip (as bs : List ℕ) : List (ℕ × ℕ) :=
  let maxLen := max as.length bs.length
  (as ++ List.replicate (maxLen - as.length) 0).zip
    (bs ++ List.replicate (maxLen - bs.length) 0)

/-- countCarryovers from useDifficultyCalculation: the number of carry
operations performed by grade-school addition of the two operands (a final
overflow carry out of the top position is not separately counted). -/
def countCarryovers (operandA operandB : ℕ) : ℕ :=
  carryZip (padZip (jsDigits operandA) (jsDigits operandB)) 0

/-- DifficultyWeights: the three scalar weights of the difficulty scorer. -/
structure DifficultyWeights where
  digits : ℚ
  carryovers : ℚ
  zeros : ℚ
  deriving DecidableEq, Repr

/-- ExerciseRecord: the read-only exercise view consumed by the core. `id` is
`none` for a record that was never persisted; JS truthiness of `ex.id` is
modelled as `ex.id.getD 0 ≠ 0` (both `undefined` and `0` are falsy). -/
structure ExerciseRecord where
  id : Option ℕ
  operandA : ℕ
  operandB : ℕ
  answer : ℕ
  displayedAt : ℚ
  solvedAt : Option ℚ
  keystrokeCount : Option ℕ
  mode : String
  deriving DecidableEq, Repr

/-- EvaluationRecord: a self-reported effort rating fanned out over the
exercises it covers. -/
structure EvaluationRecord where
  rating : ℚ
  exerciseIds : List ℕ
  mode : String
  deriving DecidableEq, Repr

/-- Mode filter argument `ExerciseMode | 'all'`: `none` stands for `'all'`,
`some m` for a concrete mode tag. -/
def ModeFilter : Type := Option String

/-- Keep-condition of the guard `if (modeFilter !== 'all' && ex.mode !== modeFilter) return`. -/
def modeKeep (mf : ModeFilter) (mode : String) : Bool :=
  match mf with
  | none => true
  | some f => mode == f

/-- calculateDifficultyScore from useDifficultyCalculation: the weighted linear
combination of digit count, carry count and (negative) zero count. -/
def calculateDifficultyScore (ex : ExerciseRecord) (weights : DifficultyWeights) : ℚ :=
  weights.digits * (countTotalDigits ex.operandA ex.operandB : ℚ) +
    weights.carryovers * (countCarryovers ex.operandA ex.operandB : ℚ) +
    weights.zeros * (countZeros ex.operandA ex.operandB : ℚ)

/-- DifficultyRange: observed raw-score bounds used for normalization. -/
structure DifficultyRange where
  min : ℚ
  max : ℚ
  deriving DecidableEq, Repr

/-- Raw difficulty scores of the mode-filtered exercise population, in input
order (the `scores` array built by calculateDifficultyRange). -/
def filteredScores (exercises : List ExerciseRecord) (weights : DifficultyWeights)
    (mf : ModeFilter) : List ℚ :=
  (exercises.filter (fun ex => modeKeep mf ex.mode)).map
    (fun ex => calculateDifficultyScore ex weights)

/-- calculateDifficultyRange from useDifficultyCalculation: fallback `{0,100}`
for an empty filtered population, `{m-1, m+1}` when all scores coincide at `m`,
otherwise the observed min and max (`Math.min(...scores)` / `Math.max(...scores)`
modelled as folds over the nonempty score list). -/
def calculateDifficultyRange (exercises : List ExerciseRecord) (weights : DifficultyWeights)
    (mf : ModeFilter) : DifficultyRange :=
  match filteredScores exercises weights mf with
  | [] => ⟨0, 100⟩
  | s :: rest =>
    let mn := rest.foldl min s
    let mx := rest.foldl max s
    if mn = mx then ⟨mn - 1, mn + 1⟩ else ⟨mn, mx⟩

/-- normalizeDifficulty from useDifficultyCalculation:
`((rawScore - range.min) / (range.max - range.min)) * 100`. -/
def normalizeDifficulty (rawScore : ℚ) (range : DifficultyRange) : ℚ :=
  (rawScore - range.min) / (range.max - range.min) * 100

/-- DataPoint consumed by the outlier detector and correlation engine. The
optional `isOutlier?` field of the source is always written before being read
on the embedded paths, so it is kept as a plain `Bool`. -/
structure DataPoint where
  x : ℚ
  y : ℚ
  isOutlier : Bool
  deriving DecidableEq, Repr

/-- Ascending numeric sort of a copy of the array, the effect of
`[...values].sort((a, b) => a - b)` (insertion sort; any stable ascending sort
is an equivalent model of the JS engine's sort). -/
def sortAsc (values : List ℚ) : List ℚ := values.insertionSort (· ≤ ·)

/-- detectOutliersIQR from useOutlierDetection: fewer than 4 values gives the
empty set; otherwise the copy is sorted ascending, the quartiles are read at the
order-statistic indices `floor(n * 0.25)` and `floor(n * 0.75)` (the source's
`undefined` guard on those reads is the wildcard match arm), and every original
index whose value lies strictly outside
`[q1 - sensitivity*iqr, q3 + sensitivity*iqr]` is collected. -/
def detectOutliersIQR (values : List ℚ) (sensitivity : ℚ) : Finset ℕ :=
  if values.length < 4 then ∅ else
  let sorted := sortAsc values
  -- the float literals 0.25 and 0.75 are exactly the rationals 1/4 and 3/4
  let q1Index := ⌊(sorted.length : ℚ) * (1/4)⌋₊
  let q3Index := ⌊(sorted.length : ℚ) * (3/4)⌋₊
  match sorted.get? q1Index, sorted.get? q3Index with
  | some q1, some q3 =>
    let iqr := q3 - q1
    let lowerBound := q1 - sensitivity * iqr
    let upperBound := q3 + sensitivity * iqr
    ((List.range values.length).filter (fun idx =>
      decide (values.getD idx 0 < lowerBound ∨ upperBound < values.getD idx 0))).toFinset
  | _, _ => ∅

/-- applyOutlierDetection from useOutlierDetection. The source makes a shallow
copy `[...points]` of the array and then assigns `point.isOutlier` on the shared
point objects, so the list computed here is simultaneously the content of the
returned array and the post-call state of the caller's array: both alias the
very same objects. Disabled detection (or fewer than 4 points) overwrites every
flag with `false`; otherwise IQR detection runs independently on the x-values
and the y-values and a point is flagged when either axis flags its index. -/
def applyOutlierDetection (points : List DataPoint) (sensitivity : ℚ)
    (enabled : Bool) : List DataPoint :=
  if enabled = false ∨ points.length < 4 then
    points.map (fun p => { p with isOutlier := false })
  else
    let xValues := points.map (fun p => p.x)
    let yValues := points.map (fun p => p.y)
    let xOutliers := detectOutliersIQR xValues sensitivity
    let yOutliers := detectOutliersIQR yValues sensitivity
    (List.range points.length).map (fun idx =>
      let p := points.getD idx ⟨0, 0, false⟩
      { p with isOutlier := decide (idx ∈ xOutliers ∨ idx ∈ yOutliers) })

/-- calculateCorrelation from useCorrelationStats: Pearson's r via the
sum-of-products formula, `null` when fewer than 2 points or when the
denominator `sqrt((n·Σx²-(Σx)²)(n·Σy²-(Σy)²))` vanishes. The `reduce`
accumulations are the corresponding list sums; the square root forces the
result into `ℝ`. -/
noncomputable def calculateCorrelation (points : List DataPoint) : Option ℝ :=
  if points.length < 2 then none else
  let n : ℝ := points.length
  let sumX : ℝ := (points.map (fun p => (p.x : ℝ))).sum
  let sumY : ℝ := (points.map (fun p => (p.y : ℝ))).sum
  let sumXY : ℝ := (points.map (fun p => (p.x : ℝ) * (p.y : ℝ))).sum
  let sumX2 : ℝ := (points.map (fun p => (p.x : ℝ) * (p.x : ℝ))).sum
  let sumY2 : ℝ := (points.map (fun p => (p.y : ℝ) * (p.y : ℝ))).sum
  let numerator := n * sumXY - sumX * sumY
  let denominator := Real.sqrt ((n * sumX2 - sumX * sumX) * (n * sumY2 - sumY * sumY))
  if denominator = 0 then none else some (numerator / denominator)

/-- Correlation triple `{cl, time, correctness}` of the weight optimizer. -/
structure Correlations where
  cl : Option ℝ
  time : Option ℝ
  correctness : Option ℝ

/-- calculateCompositeScore from useWeightOptimization: the running
`sum`/`count` pair accumulates the cl and time correlations as-is and the
absolute value of the correctness correlation, skipping `null` entries; the
result is `sum / count`, or `0` when no correlation was available. -/
noncomputable def calculateCompositeScore (correlations : Correlations) : ℝ :=
  let p0 : ℝ × ℕ := (0, 0)
  let p1 := match correlations.cl with
    | some v => (p0.1 + v, p0.2 + 1)
    | none => p0
  let p2 := match correlations.time with
    | some v => (p1.1 + v, p1.2 + 1)
    | none => p1
  let p3 := match correlations.correctness with
    | some v => (p2.1 + |v|, p2.2 + 1)
    | none => p2
  if 0 < p3.2 then p3.1 / (p3.2 : ℝ) else 0

/-- Difficulty-vs-time raw points of calculateCorrelationsForWeights: solved,
persisted, mode-matching exercises whose solve duration in seconds lies in
`[0.5, 120]`, each contributing `(normalized difficulty, duration)`. -/
def optimizerTimePoints (weights : DifficultyWeights) (exercises : List ExerciseRecord)
    (mf : ModeFilter) (range : DifficultyRange) : List DataPoint :=
  exercises.filterMap (fun ex =>
    match ex.solvedAt with
    | none => none
    | some solvedAt =>
      if ex.id.getD 0 = 0 then none
      else if modeKeep mf ex.mode = false then none
      else
        let duration := (solvedAt - ex.displayedAt) / 1000
        if duration < 1/2 ∨ 120 < duration then none
        else
          let rawDifficulty := calculateDifficultyScore ex weights
          let difficulty := normalizeDifficulty rawDifficulty range
          some ⟨difficulty, duration, false⟩)

/-- Rating list gathered for one exercise id by the `ratingMap` loop of
calculateCorrelationsForWeights: every mode-matching evaluation with rating in
`[1, 9]` pushes its rating once per occurrence of the id in its
`exerciseIds`. -/
def ratingsFor (evaluations : List EvaluationRecord) (mf : ModeFilter) (exerciseId : ℕ) : List ℚ :=
  (evaluations.filter (fun ev =>
      modeKeep mf ev.mode && decide (1 ≤ ev.rating) && decide (ev.rating ≤ 9))).flatMap
    (fun ev => (ev.exerciseIds.filter (fun i => i == exerciseId)).map (fun _ => ev.rating))

/-- Difficulty-vs-rating raw points of calculateCorrelationsForWeights: each
persisted exercise with at least one gathered rating contributes
`(normalized difficulty, average rating)`. -/
def optimizerRatingPoints (weights : DifficultyWeights) (exercises : List ExerciseRecord)
    (evaluations : List EvaluationRecord) (mf : ModeFilter) (range : DifficultyRange) :
    List DataPoint :=
  exercises.filterMap (fun ex =>
    if ex.id.getD 0 = 0 then none
    else
      let ratings := ratingsFor evaluations mf (ex.id.getD 0)
      if ratings.length = 0 then none
      else
        let avgRating := ratings.sum / (ratings.length : ℚ)
        let rawDifficulty := calculateDifficultyScore ex weights
        let difficulty := normalizeDifficulty rawDifficulty range
        some ⟨difficulty, avgRating, false⟩)

/-- Difficulty-vs-correctness raw points: this exact block appears both in
calculateCorrelationsForWeights and in the correlation view's
difficultyVsCorrectness. A persisted, mode-matching exercise with a recorded
keystroke count whose keystroke efficiency `keystrokeCount / len(answer) * 100`
lies in `[100, 500]` contributes `(normalized difficulty, isCorrect)`, where
`isCorrect` is `1` exactly at efficiency `100` and `0` otherwise. -/
def correctnessRawPoints (weights : DifficultyWeights) (exercises : List ExerciseRecord)
    (mf : ModeFilter) (range : DifficultyRange) : List DataPoint :=
  exercises.filterMap (fun ex =>
    match ex.keystrokeCount with
    | none => none
    | some keystrokeCount =>
      if ex.id.getD 0 = 0 then none
      else if modeKeep mf ex.mode = false then none
      else
        let optimal := numDigits ex.answer
        let efficiency := (keystrokeCount : ℚ) / (optimal : ℚ) * 100
        if efficiency < 100 ∨ 500 < efficiency then none
        else
          let rawDifficulty := calculateDifficultyScore ex weights
          let difficulty := normalizeDifficulty rawDifficulty range
          let isCorrect : ℚ := if efficiency = 100 then 1 else 0
          some ⟨difficulty, isCorrect, false⟩)

/-- Difficulty-vs-correctness point set of the weight optimizer, after its
outlier pass: calculateCorrelationsForWeights feeds the raw points through
`applyOutlierDetection`, which (when enabled) runs IQR detection on both the
x-values and the binary y-values. -/
def optimizerCorrectnessPoints (weights : DifficultyWeights) (exercises : List ExerciseRecord)
    (mf : ModeFilter) (detectOutliers : Bool) (outlierSensitivity : ℚ) : List DataPoint :=
  let range := calculateDifficultyRange exercises weights mf
  applyOutlierDetection (correctnessRawPoints weights exercises mf range)
    outlierSensitivity detectOutliers

/-- Difficulty-vs-correctness point set of the correlation view
(difficultyVsCorrectness): the same raw points, but outliers are detected on
the x-axis only — with at least 4 points each flag is set from the x-value IQR
set alone, otherwise the flags keep their constructed `false`. -/
def viewCorrectnessPoints (weights : DifficultyWeights) (exercises : List ExerciseRecord)
    (mf : ModeFilter) (outlierSensitivity : ℚ) : List DataPoint :=
  let range := calculateDifficultyRange exercises weights mf
  let points := correctnessRawPoints weights exercises mf range
  if 4 ≤ points.length then
    let xValues := points.map (fun p => p.x)
    let xOutliers := detectOutliersIQR xValues outlierSensitivity
    (List.range points.length).map (fun idx =>
      let p := points.getD idx ⟨0, 0, false⟩
      { p with isOutlier := decide (idx ∈ xOutliers) })
  else points

/-- calculateCorrelationsForWeights from useWeightOptimization: the difficulty
range over the filtered population with the candidate weights, the three point
sets, an outlier pass over each, and a correlation over the non-outlier
points of each. -/
noncomputable def calculateCorrelationsForWeights (weights : DifficultyWeights)
    (exercises : List ExerciseRecord) (evaluations : List EvaluationRecord)
    (mf : ModeFilter) (detectOutliers : Bool) (outlierSensitivity : ℚ) : Correlations :=
  let range := calculateDifficultyRange exercises weights mf
  let timePointsWithOutliers :=
    applyOutlierDetection (optimizerTimePoints weights exercises mf range)
      outlierSensitivity detectOutliers
  let timeCorr := calculateCorrelation (timePointsWithOutliers.filter (fun p => !p.isOutlier))
  let ratingPointsWithOutliers :=
    applyOutlierDetection (optimizerRatingPoints weights exercises evaluations mf range)
      outlierSensitivity detectOutliers
  let clCorr := calculateCorrelation (ratingPointsWithOutliers.filter (fun p => !p.isOutlier))
  let correctnessPointsWithOutliers :=
    optimizerCorrectnessPoints weights exercises mf detectOutliers outlierSensitivity
  let correctnessCorr :=
    calculateCorrelation (correctnessPointsWithOutliers.filter (fun p => !p.isOutlier))
  ⟨clCorr, timeCorr, correctnessCorr⟩

/-- Math.round of the source, `Math.round(x) = floor(x + 0.5)`. -/
def jsRound (x : ℚ) : ℤ := ⌊x + 1/2⌋

/-- Weight-axis enumeration of gridSearch: the loop
`for (v = min; v <= max; v += step) push(Math.round(v*10)/10)` under exact
rational arithmetic, i.e. `min + i*step` for `i = 0, ..., floor((max-min)/step)`
rounded to one decimal. (The source accumulates IEEE doubles, which can drop
the final grid line; the exact-arithmetic grid is the model used here — the
claims settled below do not depend on that boundary.) -/
def gridValues (mn mx step : ℚ) : List ℚ :=
  (List.range (⌊(mx - mn) / step⌋₊ + 1)).map
    (fun i : ℕ => (jsRound ((mn + (i : ℚ) * step) * 10) : ℚ) / 10)

/-- Cartesian enumeration order of gridSearch: digits outer, carryovers middle,
zeros inner. -/
def gridCombos : List (ℚ × ℚ × ℚ) :=
  (gridValues 0 5 (1/5)).flatMap (fun digits =>
    (gridValues 0 10 (2/5)).flatMap (fun carryovers =>
      (gridValues 0 5 (1/5)).map (fun zeros => (digits, carryovers, zeros))))

/-- OptimizationResult of gridSearch. The incumbent's `compositeScore` starts
at `-Infinity`, modelled as `⊥ : WithBot ℝ`; every computed composite score is
a real number coerced into `WithBot ℝ`. -/
structure OptimizationResult where
  weights : DifficultyWeights
  correlations : Correlations
  compositeScore : WithBot ℝ

/-- Initial incumbent of gridSearch: the default weights
`{digits: 1.0, carryovers: 2.5, zeros: 0.5}`, null correlations, and a
`-Infinity` composite score. -/
def initialBest : OptimizationResult :=
  ⟨⟨1, 5/2, 1/2⟩, ⟨none, none, none⟩, ⊥⟩

/-- Body of the gridSearch triple loop for one weight combination: compute the
correlations and composite score and replace the incumbent exactly when the
score is strictly greater. -/
noncomputable def gridStep (exercises : List ExerciseRecord)
    (evaluations : List EvaluationRecord) (mf : ModeFilter) (detectOutliers : Bool)
    (outlierSensitivity : ℚ) (best : OptimizationResult) (combo : ℚ × ℚ × ℚ) :
    OptimizationResult :=
  let weights : DifficultyWeights := ⟨combo.1, combo.2.1, combo.2.2⟩
  let correlations := calculateCorrelationsForWeights weights exercises evaluations mf
    detectOutliers outlierSensitivity
  let compositeScore := calculateCompositeScore correlations
  if best.compositeScore < (compositeScore : WithBot ℝ) then
    ⟨weights, correlations, (compositeScore : WithBot ℝ)⟩
  else best

/-- gridSearch from useWeightOptimization. The progress callback and the
cooperative `await` are dropped: they do not influence the returned value. -/
noncomputable def gridSearch (exercises : List ExerciseRecord)
    (evaluations : List EvaluationRecord) (mf : ModeFilter) (detectOutliers : Bool)
    (outlierSensitivity : ℚ) : OptimizationResult :=
  gridCombos.foldl (gridStep exercises evaluations mf detectOutliers outlierSensitivity)
    initialBest

/-- Modelled from the spec: the composite score described in §4.6 — the
arithmetic mean of the available (non-null) correlations, taking the absolute
value of the correctness correlation and the raw signed cl/time values, and `0`
when no correlation is available. Stated independently of
`calculateCompositeScore` so the two can be compared. -/
noncomputable def specCompositeScore (correlations : Correlations) : ℝ :=
  let available := [correlations.cl, correlations.time,
    correlations.correctness.map (fun v => |v|)].filterMap id
  if available.length = 0 then 0 else available.sum / (available.length : ℝ)

/-! Helper lemmas (not tied to a single claim). -/

theorem carryZip_swap : ∀ (l : List (ℕ × ℕ)) (c : ℕ),
    carryZip (l.map Prod.swap) c = carryZip l c
  | [], _ => rfl
  | (da, db) :: rest, c => by
    simp only [List.map_cons, Prod.swap_prod_mk, carryZip]
    rw [Nat.add_comm db da]
    exact congrArg _ (carryZip_swap rest _)

theorem padZip_swap (as bs : List ℕ) : padZip bs as = (padZip as bs).map Prod.swap := by
  unfold padZip
  rw [List.zip_swap, Nat.max_comm bs.length as.length]

theorem mem_detectOutliersIQR {values : List ℚ} {s : ℚ} (h : ¬ values.length < 4)
    {q1 q3 : ℚ}
    (h1 : (sortAsc values).get? ⌊((sortAsc values).length : ℚ) * (1/4)⌋₊ = some q1)
    (h3 : (sortAsc values).get? ⌊((sortAsc values).length : ℚ) * (3/4)⌋₊ = some q3)
    (i : ℕ) :
    i ∈ detectOutliersIQR values s ↔
      i < values.length ∧
        (values.getD i 0 < q1 - s * (q3 - q1) ∨ q3 + s * (q3 - q1) < values.getD i 0) := by
  unfold detectOutliersIQR
  rw [if_neg h]
  simp only [h1, h3]
  simp [List.mem_filter, List.mem_range, decide_eq_true_eq]

/-- C9: for all non-negative integer operands `a` and `b`,
`countCarryovers a b = countCarryovers b a` and
`countTotalDigits a b = countTotalDigits b a`. -/
theorem countCarryovers_countTotalDigits_comm (a b : ℕ) :
    countCarryovers a b = countCarryovers b a ∧
      countTotalDigits a b = countTotalDigits b a := by
  constructor
  · unfold countCarryovers
    rw [padZip_swap, carryZip_swap]
  · unfold countTotalDigits
    exact Nat.add_comm _ _

/-- C8: for every non-degenerate range, normalizing the range's own endpoints
gives exactly 0 and 100. -/
theorem normalizeDifficulty_endpoints (range : DifficultyRange)
    (h : range.min ≠ range.max) :
    normalizeDifficulty range.min range = 0 ∧ normalizeDifficulty range.max range = 100 := by
  have hne : range.max - range.min ≠ 0 := sub_ne_zero.mpr (Ne.symm h)
  constructor
  · simp [normalizeDifficulty]
  · unfold normalizeDifficulty
    rw [div_self hne]
    ring

/-- Witness for C8 at the concrete range `{min: 0, max: 10}`. -/
theorem normalizeDifficulty_endpoints_witness :
    normalizeDifficulty (0 : ℚ) ⟨0, 10⟩ = 0 ∧ normalizeDifficulty (10 : ℚ) ⟨0, 10⟩ = 100 :=
  normalizeDifficulty_endpoints ⟨0, 10⟩ (by norm_num)

unseal Rat.add Rat.mul Rat.inv Rat.sub in
/-- C1 counterexample: on `[1,2,3,100]` with sensitivity 1.5 the detector does
not return `{3}` — with `n = 4` the q3 order statistic `sorted[3]` is the
maximum `100` itself, so the upper bound `100 + 1.5*98` clears every value. -/
theorem detectOutliersIQR_extreme_counterexample :
    detectOutliersIQR [1, 2, 3, 100] (3/2) ≠ {3} := by decide

unseal Rat.add Rat.mul Rat.inv Rat.sub in
/-- C1 amended: `detectOutliersIQR [1,2,3,4] s` is empty for every sensitivity
`s ≥ 1.5`, and `detectOutliersIQR [1,2,3,100] 1.5` is also the empty set (not
`{3}`): the quartile indexing `q3 = sorted[floor(0.75*4)] = sorted[3]` puts the
extreme value at q3, so it can never be strictly outside the bounds. -/
theorem detectOutliersIQR_small_samples :
    (∀ s : ℚ, 3/2 ≤ s → detectOutliersIQR [1, 2, 3, 4] s = ∅) ∧
      detectOutliersIQR [1, 2, 3, 100] (3/2) = ∅ := by
  constructor
  · intro s hs
    rw [Finset.eq_empty_iff_forall_not_mem]
    intro i hi
    rw [@mem_detectOutliersIQR [1, 2, 3, 4] s (by decide) 2 4 (by decide) (by decide)] at hi
    obtain ⟨hlt, habs⟩ := hi
    have hlt4 : i < 4 := by simpa using hlt
    have hv : ([1, 2, 3, 4] : List ℚ).getD i 0 = 1 ∨ ([1, 2, 3, 4] : List ℚ).getD i 0 = 2 ∨
        ([1, 2, 3, 4] : List ℚ).getD i 0 = 3 ∨ ([1, 2, 3, 4] : List ℚ).getD i 0 = 4 := by
      interval_cases i <;> simp [List.getD]
    rcases habs with h | h <;> rcases hv with hv | hv | hv | hv <;> rw [hv] at h <;> linarith
  · decide

unseal Rat.add Rat.mul Rat.inv Rat.sub in
/-- Witness for C1 at the concrete sensitivity 2. -/
theorem detectOutliersIQR_small_samples_witness :
    detectOutliersIQR [1, 2, 3, 4] 2 = ∅ :=
  detectOutliersIQR_small_samples.1 2 (by decide)

theorem getD_map_x : ∀ (l : List DataPoint) (i : ℕ),
    (l.map DataPoint.x).getD i 0 = (l.getD i ⟨0, 0, false⟩).x
  | [], _ => rfl
  | _ :: _, 0 => rfl
  | _ :: t, i + 1 => by
    simp only [List.map_cons, List.getD_cons_succ]
    exact getD_map_x t i

theorem getD_map_y : ∀ (l : List DataPoint) (i : ℕ),
    (l.map DataPoint.y).getD i 0 = (l.getD i ⟨0, 0, false⟩).y
  | [], _ => rfl
  | _ :: _, 0 => rfl
  | _ :: t, i + 1 => by
    simp only [List.map_cons, List.getD_cons_succ]
    exact getD_map_y t i

theorem map_setFalse_eq_of_xy : ∀ (l l' : List DataPoint),
    l.map DataPoint.x = l'.map DataPoint.x → l.map DataPoint.y = l'.map DataPoint.y →
      l.map (fun p => { p with isOutlier := false }) =
        l'.map (fun p => { p with isOutlier := false })
  | [], [], _, _ => rfl
  | [], _ :: _, hx, _ => by simp at hx
  | _ :: _, [], hx, _ => by simp at hx
  | p :: t, p' :: t', hx, hy => by
    simp only [List.map_cons, List.cons.injEq] at hx hy ⊢
    refine ⟨?_, map_setFalse_eq_of_xy t t' hx.2 hy.2⟩
    show DataPoint.mk p.x p.y false = DataPoint.mk p'.x p'.y false
    rw [hx.1, hy.1]

theorem range_map_getD : ∀ (l : List DataPoint),
    (List.range l.length).map (fun i => l.getD i ⟨0, 0, false⟩) = l
  | [] => rfl
  | a :: t => by
    rw [List.length_cons, List.range_succ_eq_map, List.map_cons, List.map_map]
    refine congrArg (a :: ·) ?_
    have : ((fun i => (a :: t).getD i ⟨0, 0, false⟩) ∘ Nat.succ) =
        fun i => t.getD i ⟨0, 0, false⟩ := by
      funext i
      simp [Function.comp, List.getD_cons_succ]
    rw [this]
    exact range_map_getD t

/-- C3 counterexample: `applyOutlierDetection` overwrites the `isOutlier` flag
of the caller's point objects. The source copies the array shallowly
(`const result = [...points]`) and then assigns `point.isOutlier` on the shared
objects, so the input array's points after the call read back as the returned
list — which here differs from their pre-call values: all four flags were
`true` and the disabled pass resets them to `false`. -/
theorem applyOutlierDetection_mutates_counterexample :
    applyOutlierDetection
        [⟨0, 0, true⟩, ⟨1, 1, true⟩, ⟨2, 2, true⟩, ⟨3, 3, true⟩] 1 false ≠
      [⟨0, 0, true⟩, ⟨1, 1, true⟩, ⟨2, 2, true⟩, ⟨3, 3, true⟩] := by decide

theorem applyOutlierDetection_pos (points : List DataPoint) (s : ℚ) (e : Bool)
    (h : e = false ∨ points.length < 4) :
    applyOutlierDetection points s e =
      points.map (fun p => { p with isOutlier := false }) := by
  unfold applyOutlierDetection
  rw [if_pos h]

theorem applyOutlierDetection_neg (points : List DataPoint) (s : ℚ) (e : Bool)
    (h : ¬(e = false ∨ points.length < 4)) :
    applyOutlierDetection points s e =
      (List.range points.length).map (fun idx =>
        { points.getD idx ⟨0, 0, false⟩ with isOutlier :=
            (decide (idx ∈ detectOutliersIQR (points.map (fun p => p.x)) s ∨
              idx ∈ detectOutliersIQR (points.map (fun p => p.y)) s)) }) := by
  unfold applyOutlierDetection
  rw [if_neg h]

theorem flagged_range_map (l : List DataPoint) (g : ℕ → Bool) :
    (List.range l.length).map (fun idx =>
        { l.getD idx ⟨0, 0, false⟩ with isOutlier := g idx }) =
      (List.range l.length).map (fun idx =>
        DataPoint.mk ((l.map DataPoint.x).getD idx 0) ((l.map DataPoint.y).getD idx 0)
          (g idx)) := by
  refine congrArg (fun f => List.map f (List.range l.length)) (funext fun idx => ?_)
  show DataPoint.mk (l.getD idx ⟨0, 0, false⟩).x (l.getD idx ⟨0, 0, false⟩).y (g idx) = _
  rw [getD_map_x, getD_map_y]

theorem flagged_map_x (l : List DataPoint) (g : ℕ → Bool) :
    ((List.range l.length).map (fun idx =>
        { l.getD idx ⟨0, 0, false⟩ with isOutlier := g idx })).map DataPoint.x =
      l.map DataPoint.x := by
  rw [List.map_map]
  have h1 : (DataPoint.x ∘ fun idx => { l.getD idx ⟨0, 0, false⟩ with isOutlier := g idx }) =
      DataPoint.x ∘ (fun idx => l.getD idx ⟨0, 0, false⟩) := rfl
  rw [h1, ← List.map_map, range_map_getD]

theorem flagged_map_y (l : List DataPoint) (g : ℕ → Bool) :
    ((List.range l.length).map (fun idx =>
        { l.getD idx ⟨0, 0, false⟩ with isOutlier := g idx })).map DataPoint.y =
      l.map DataPoint.y := by
  rw [List.map_map]
  have h1 : (DataPoint.y ∘ fun idx => { l.getD idx ⟨0, 0, false⟩ with isOutlier := g idx }) =
      DataPoint.y ∘ (fun idx => l.getD idx ⟨0, 0, false⟩) := rfl
  rw [h1, ← List.map_map, range_map_getD]

/-- C3 amended: `applyOutlierDetection` returns a new array whose points keep
the input's x and y values, but the `isOutlier` flags are freshly computed from
the x/y values alone — independent of the flags the input carried — and,
because the copy is shallow, the input array's objects carry exactly these
fresh flags after the call instead of their previous values. -/
theorem applyOutlierDetection_overwrites (points points' : List DataPoint) (s : ℚ) (e : Bool)
    (hx : points.map DataPoint.x = points'.map DataPoint.x)
    (hy : points.map DataPoint.y = points'.map DataPoint.y) :
    (applyOutlierDetection points s e).map DataPoint.x = points.map DataPoint.x ∧
      (applyOutlierDetection points s e).map DataPoint.y = points.map DataPoint.y ∧
      applyOutlierDetection points s e = applyOutlierDetection points' s e := by
  have hlen : points.length = points'.length := by
    have := congrArg List.length hx
    simpa using this
  by_cases hcond : e = false ∨ points.length < 4
  · rw [applyOutlierDetection_pos points s e hcond,
      applyOutlierDetection_pos points' s e (by rw [← hlen]; exact hcond)]
    refine ⟨?_, ?_, map_setFalse_eq_of_xy points points' hx hy⟩
    · rw [List.map_map]
      rfl
    · rw [List.map_map]
      rfl
  · rw [applyOutlierDetection_neg points s e hcond,
      applyOutlierDetection_neg points' s e (by rw [← hlen]; exact hcond)]
    refine ⟨flagged_map_x _ _, flagged_map_y _ _, ?_⟩
    rw [flagged_range_map points, flagged_range_map points', hx, hy, hlen]

/-- Witness for C3 amended, at two concrete 4-point arrays sharing x/y values
but differing in their incoming flags. -/
theorem applyOutlierDetection_overwrites_witness :
    (applyOutlierDetection
          [⟨0, 0, true⟩, ⟨1, 1, true⟩, ⟨2, 2, true⟩, ⟨3, 3, true⟩] 1 false).map DataPoint.x =
        [⟨0, 0, true⟩, ⟨1, 1, true⟩, ⟨2, 2, true⟩, ⟨3, 3, true⟩].map DataPoint.x ∧
      (applyOutlierDetection
          [⟨0, 0, true⟩, ⟨1, 1, true⟩, ⟨2, 2, true⟩, ⟨3, 3, true⟩] 1 false).map DataPoint.y =
        [⟨0, 0, true⟩, ⟨1, 1, true⟩, ⟨2, 2, true⟩, ⟨3, 3, true⟩].map DataPoint.y ∧
      applyOutlierDetection
          [⟨0, 0, true⟩, ⟨1, 1, true⟩, ⟨2, 2, true⟩, ⟨3, 3, true⟩] 1 false =
        applyOutlierDetection
          [⟨0, 0, false⟩, ⟨1, 1, false⟩, ⟨2, 2, false⟩, ⟨3, 3, false⟩] 1 false :=
  applyOutlierDetection_overwrites _ _ 1 false (by decide) (by decide)

unseal Rat.add Rat.mul Rat.inv Rat.sub in
/-- C2: the weight optimizer does subject the binary 0/1 correctness y-axis to
IQR detection. On four exercises with identical operands (all x-difficulties
normalize to 50, so no x-value is an x-outlier) of which three are typed at
efficiency 100 (y = 1) and one at efficiency 200 (y = 0), the optimizer's
correctness point set flags the y = 0 point — its flag can only come from the
y-axis IQR pass — while the correlation view's x-only construction of the very
same raw points flags nothing. -/
theorem optimizer_applies_y_axis_iqr_to_binary_correctness :
    ((optimizerCorrectnessPoints ⟨1, 5/2, 1/2⟩
          [⟨some 1, 1, 2, 3, 0, none, some 1, "m"⟩, ⟨some 2, 1, 2, 3, 0, none, some 1, "m"⟩,
            ⟨some 3, 1, 2, 3, 0, none, some 1, "m"⟩, ⟨some 4, 1, 2, 3, 0, none, some 2, "m"⟩]
          none true (3/2)).map DataPoint.isOutlier = [false, false, false, true]) ∧
      detectOutliersIQR
          ((optimizerCorrectnessPoints ⟨1, 5/2, 1/2⟩
                [⟨some 1, 1, 2, 3, 0, none, some 1, "m"⟩, ⟨some 2, 1, 2, 3, 0, none, some 1, "m"⟩,
                  ⟨some 3, 1, 2, 3, 0, none, some 1, "m"⟩, ⟨some 4, 1, 2, 3, 0, none, some 2, "m"⟩]
                none true (3/2)).map DataPoint.x) (3/2) = ∅ ∧
      ((viewCorrectnessPoints ⟨1, 5/2, 1/2⟩
          [⟨some 1, 1, 2, 3, 0, none, some 1, "m"⟩, ⟨some 2, 1, 2, 3, 0, none, some 1, "m"⟩,
            ⟨some 3, 1, 2, 3, 0, none, some 1, "m"⟩, ⟨some 4, 1, 2, 3, 0, none, some 2, "m"⟩]
          none (3/2)).map DataPoint.isOutlier = [false, false, false, false]) := by
  decide

/-- C5: `calculateCompositeScore` is exactly the spec's composite — the
arithmetic mean of the non-null correlations with the correctness entry taken
in absolute value, `0` when all three are null. -/
theorem calculateCompositeScore_eq_spec (correlations : Correlations) :
    calculateCompositeScore correlations = specCompositeScore correlations := by
  obtain ⟨cl, time, correctness⟩ := correlations
  cases cl <;> cases time <;> cases correctness <;>
    simp [calculateCompositeScore, specCompositeScore] <;> ring_nf

theorem foldl_min_mem : ∀ (l : List ℚ) (a : ℚ), l.foldl min a ∈ a :: l
  | [], a => List.mem_singleton.mpr rfl
  | b :: t, a => by
    rw [List.foldl_cons]
    rcases List.mem_cons.mp (foldl_min_mem t (min a b)) with h2 | h2
    · rcases min_choice a b with h | h
      · rw [List.mem_cons]
        left
        rw [h2, h]
      · rw [List.mem_cons, List.mem_cons]
        right; left
        rw [h2, h]
    · exact List.mem_cons.mpr (Or.inr (List.mem_cons.mpr (Or.inr h2)))

theorem foldl_max_mem : ∀ (l : List ℚ) (a : ℚ), l.foldl max a ∈ a :: l
  | [], a => List.mem_singleton.mpr rfl
  | b :: t, a => by
    rw [List.foldl_cons]
    rcases List.mem_cons.mp (foldl_max_mem t (max a b)) with h2 | h2
    · rcases max_choice a b with h | h
      · rw [List.mem_cons]
        left
        rw [h2, h]
      · rw [List.mem_cons, List.mem_cons]
        right; left
        rw [h2, h]
    · exact List.mem_cons.mpr (Or.inr (List.mem_cons.mpr (Or.inr h2)))

theorem foldl_min_le : ∀ (l : List ℚ) (a : ℚ), ∀ x ∈ a :: l, l.foldl min a ≤ x
  | [], a, x, hx => by
    have hxa : x = a := by simpa using hx
    simp [hxa, List.foldl_nil]
  | b :: t, a, x, hx => by
    rw [List.foldl_cons]
    have hfold : List.foldl min (min a b) t ≤ min a b :=
      foldl_min_le t (min a b) (min a b) (List.mem_cons_self _ _)
    rcases List.mem_cons.mp hx with h | h
    · rw [h]
      exact le_trans hfold (min_le_left a b)
    · rcases List.mem_cons.mp h with h2 | h2
      · rw [h2]
        exact le_trans hfold (min_le_right a b)
      · exact foldl_min_le t (min a b) x (List.mem_cons.mpr (Or.inr h2))

theorem le_foldl_max : ∀ (l : List ℚ) (a : ℚ), ∀ x ∈ a :: l, x ≤ l.foldl max a
  | [], a, x, hx => by
    have hxa : x = a := by simpa using hx
    simp [hxa, List.foldl_nil]
  | b :: t, a, x, hx => by
    rw [List.foldl_cons]
    have hfold : max a b ≤ List.foldl max (max a b) t :=
      le_foldl_max t (max a b) (max a b) (List.mem_cons_self _ _)
    rcases List.mem_cons.mp hx with h | h
    · rw [h]
      exact le_trans (le_max_left a b) hfold
    · rcases List.mem_cons.mp h with h2 | h2
      · rw [h2]
        exact le_trans (le_max_right a b) hfold
      · exact le_foldl_max t (max a b) x (List.mem_cons.mpr (Or.inr h2))

/-- C7: `calculateDifficultyRange` returns the fallback `{0, 100}` on an empty
mode-filtered population, the widened `{m-1, m+1}` when every filtered raw
score equals `m`, and otherwise the minimum and maximum of the filtered raw
scores. -/
theorem calculateDifficultyRange_spec (exercises : List ExerciseRecord)
    (weights : DifficultyWeights) (mf : ModeFilter) :
    (filteredScores exercises weights mf = [] →
        calculateDifficultyRange exercises weights mf = ⟨0, 100⟩) ∧
      (∀ m : ℚ, filteredScores exercises weights mf ≠ [] →
        (∀ x ∈ filteredScores exercises weights mf, x = m) →
        calculateDifficultyRange exercises weights mf = ⟨m - 1, m + 1⟩) ∧
      (filteredScores exercises weights mf ≠ [] →
        ¬(∀ x ∈ filteredScores exercises weights mf,
            ∀ y ∈ filteredScores exercises weights mf, x = y) →
        ((calculateDifficultyRange exercises weights mf).min ∈
            filteredScores exercises weights mf ∧
          (calculateDifficultyRange exercises weights mf).max ∈
            filteredScores exercises weights mf ∧
          ∀ z ∈ filteredScores exercises weights mf,
            (calculateDifficultyRange exercises weights mf).min ≤ z ∧
              z ≤ (calculateDifficultyRange exercises weights mf).max)) := by
  cases hsc : filteredScores exercises weights mf with
  | nil =>
    refine ⟨fun _ => ?_, fun m hne _ => absurd rfl hne, fun hne _ => absurd rfl hne⟩
    unfold calculateDifficultyRange
    rw [hsc]
  | cons s rest =>
    have hrange : calculateDifficultyRange exercises weights mf =
        if rest.foldl min s = rest.foldl max s then
          ⟨rest.foldl min s - 1, rest.foldl min s + 1⟩
        else ⟨rest.foldl min s, rest.foldl max s⟩ := by
      unfold calculateDifficultyRange
      rw [hsc]
    refine ⟨fun h => ?_, fun m hne hall => ?_, fun hne hnall => ?_⟩
    · simp at h
    · have hmin : rest.foldl min s = m := hall _ (foldl_min_mem rest s)
      have hmax : rest.foldl max s = m := hall _ (foldl_max_mem rest s)
      rw [hrange, if_pos (by rw [hmin, hmax]), hmin]
    · have hneq : rest.foldl min s ≠ rest.foldl max s := by
        intro heq
        apply hnall
        intro x hx y hy
        have h1 := foldl_min_le rest s x hx
        have h2 := le_foldl_max rest s x hx
        have h3 := foldl_min_le rest s y hy
        have h4 := le_foldl_max rest s y hy
        rw [heq] at h1 h3
        rw [le_antisymm h2 h1, le_antisymm h4 h3]
      rw [hrange, if_neg hneq]
      exact ⟨foldl_min_mem rest s, foldl_max_mem rest s,
        fun z hz => ⟨foldl_min_le rest s z hz, le_foldl_max rest s z hz⟩⟩

unseal Rat.add Rat.mul Rat.inv Rat.sub in
/-- Witness for C7: the empty population gives the fallback, a constant-score
population at score 2 gives `{1, 3}`, and a two-score population `{2, 3}` gives
its min and max. -/
theorem calculateDifficultyRange_spec_witness :
    calculateDifficultyRange [] ⟨1, 1, 1⟩ none = ⟨0, 100⟩ ∧
      calculateDifficultyRange
          [⟨some 1, 1, 2, 3, 0, none, none, "m"⟩, ⟨some 2, 1, 2, 3, 0, none, none, "m"⟩]
          ⟨1, 1, 1⟩ none = ⟨1, 3⟩ ∧
      ((calculateDifficultyRange
            [⟨some 1, 1, 2, 3, 0, none, none, "m"⟩, ⟨some 2, 9, 9, 18, 0, none, none, "m"⟩]
            ⟨1, 1, 1⟩ none).min ∈
          filteredScores
            [⟨some 1, 1, 2, 3, 0, none, none, "m"⟩, ⟨some 2, 9, 9, 18, 0, none, none, "m"⟩]
            ⟨1, 1, 1⟩ none ∧
        (calculateDifficultyRange
            [⟨some 1, 1, 2, 3, 0, none, none, "m"⟩, ⟨some 2, 9, 9, 18, 0, none, none, "m"⟩]
            ⟨1, 1, 1⟩ none).max ∈
          filteredScores
            [⟨some 1, 1, 2, 3, 0, none, none, "m"⟩, ⟨some 2, 9, 9, 18, 0, none, none, "m"⟩]
            ⟨1, 1, 1⟩ none ∧
        ∀ z ∈ filteredScores
            [⟨some 1, 1, 2, 3, 0, none, none, "m"⟩, ⟨some 2, 9, 9, 18, 0, none, none, "m"⟩]
            ⟨1, 1, 1⟩ none,
          (calculateDifficultyRange
              [⟨some 1, 1, 2, 3, 0, none, none, "m"⟩, ⟨some 2, 9, 9, 18, 0, none, none, "m"⟩]
              ⟨1, 1, 1⟩ none).min ≤ z ∧
            z ≤ (calculateDifficultyRange
              [⟨some 1, 1, 2, 3, 0, none, none, "m"⟩, ⟨some 2, 9, 9, 18, 0, none, none, "m"⟩]
              ⟨1, 1, 1⟩ none).max) :=
  ⟨(calculateDifficultyRange_spec [] ⟨1, 1, 1⟩ none).1 (by decide),
    (calculateDifficultyRange_spec
        [⟨some 1, 1, 2, 3, 0, none, none, "m"⟩, ⟨some 2, 1, 2, 3, 0, none, none, "m"⟩]
        ⟨1, 1, 1⟩ none).2.1 2 (by decide) (by decide),
    (calculateDifficultyRange_spec
        [⟨some 1, 1, 2, 3, 0, none, none, "m"⟩, ⟨some 2, 9, 9, 18, 0, none, none, "m"⟩]
        ⟨1, 1, 1⟩ none).2.2 (by decide) (by decide)⟩

theorem get?_eq_some_getD (l : List ℚ) (i : ℕ) (h : i < l.length) :
    l.get? i = some (l.getD i 0) := by
  rw [List.getD_eq_get?]
  cases hg : l.get? i with
  | none => exact absurd (List.get?_eq_none.mp hg) (by omega)
  | some a => rfl

/-- C6: for lists of fewer than 4 values `detectOutliersIQR` returns the empty
set; for lists of at least 4 values it sorts a copy ascending (the sorted list
is an ascending permutation of the input) and returns exactly the original
indices of values strictly below `q1 - s*iqr` or strictly above `q3 + s*iqr`,
where `q1` and `q3` are the order statistics at `floor(0.25*n) = n/4` and
`floor(0.75*n) = 3*n/4`. -/
theorem detectOutliersIQR_characterization :
    (∀ (values : List ℚ) (s : ℚ), values.length < 4 → detectOutliersIQR values s = ∅) ∧
      ∀ (values : List ℚ) (s : ℚ), 4 ≤ values.length →
        List.Sorted (· ≤ ·) (sortAsc values) ∧ (sortAsc values).Perm values ∧
          ∀ i : ℕ,
            (i ∈ detectOutliersIQR values s ↔
              i < values.length ∧
                (values.getD i 0 <
                    (sortAsc values).getD (values.length / 4) 0 -
                      s * ((sortAsc values).getD (3 * values.length / 4) 0 -
                        (sortAsc values).getD (values.length / 4) 0) ∨
                  (sortAsc values).getD (3 * values.length / 4) 0 +
                      s * ((sortAsc values).getD (3 * values.length / 4) 0 -
                        (sortAsc values).getD (values.length / 4) 0) <
                    values.getD i 0)) := by
  constructor
  · intro values s h
    unfold detectOutliersIQR
    rw [if_pos h]
  · intro values s h4
    have hlen : (sortAsc values).length = values.length := List.length_insertionSort _ _
    refine ⟨List.sorted_insertionSort _ _, List.perm_insertionSort _ _, fun i => ?_⟩
    have hq1i : ⌊((sortAsc values).length : ℚ) * (1/4)⌋₊ = values.length / 4 := by
      rw [hlen, mul_one_div, Nat.floor_div_ofNat, Nat.floor_natCast]
    have hq3i : ⌊((sortAsc values).length : ℚ) * (3/4)⌋₊ = 3 * values.length / 4 := by
      rw [hlen]
      have h34 : ((values.length : ℚ)) * (3/4) = ((3 * values.length : ℕ) : ℚ) / 4 := by
        push_cast
        ring
      rw [h34, Nat.floor_div_ofNat, Nat.floor_natCast]
    have h1 : (sortAsc values).get? ⌊((sortAsc values).length : ℚ) * (1/4)⌋₊ =
        some ((sortAsc values).getD (values.length / 4) 0) := by
      rw [hq1i]
      exact get?_eq_some_getD _ _ (by omega)
    have h3 : (sortAsc values).get? ⌊((sortAsc values).length : ℚ) * (3/4)⌋₊ =
        some ((sortAsc values).getD (3 * values.length / 4) 0) := by
      rw [hq3i]
      exact get?_eq_some_getD _ _ (by omega)
    exact mem_detectOutliersIQR (by omega) h1 h3 i

/-- Witness for C6 at the concrete 3-element list (small-sample clause). -/
theorem detectOutliersIQR_characterization_witness :
    detectOutliersIQR [1, 2, 3] 1 = ∅ :=
  detectOutliersIQR_characterization.1 [1, 2, 3] 1 (by decide)

theorem calculateCorrelationsForWeights_nil (weights : DifficultyWeights)
    (evaluations : List EvaluationRecord) (mf : ModeFilter) (detectOutliers : Bool)
    (outlierSensitivity : ℚ) :
    calculateCorrelationsForWeights weights [] evaluations mf detectOutliers
        outlierSensitivity = ⟨none, none, none⟩ := by
  unfold calculateCorrelationsForWeights optimizerCorrectnessPoints optimizerTimePoints
    optimizerRatingPoints correctnessRawPoints
  simp [applyOutlierDetection, calculateCorrelation]

theorem calculateCompositeScore_none : calculateCompositeScore ⟨none, none, none⟩ = 0 := by
  simp [calculateCompositeScore]

theorem gridStep_empty (evaluations : List EvaluationRecord) (mf : ModeFilter)
    (detectOutliers : Bool) (outlierSensitivity : ℚ) (best : OptimizationResult)
    (combo : ℚ × ℚ × ℚ) (h : best.compositeScore = ((0 : ℝ) : WithBot ℝ)) :
    gridStep [] evaluations mf detectOutliers outlierSensitivity best combo = best := by
  unfold gridStep
  simp only [calculateCorrelationsForWeights_nil, calculateCompositeScore_none, h]
  simp

theorem foldl_gridStep_empty (evaluations : List EvaluationRecord) (mf : ModeFilter)
    (detectOutliers : Bool) (outlierSensitivity : ℚ) :
    ∀ (l : List (ℚ × ℚ × ℚ)) (best : OptimizationResult),
      best.compositeScore = ((0 : ℝ) : WithBot ℝ) →
        l.foldl (gridStep [] evaluations mf detectOutliers outlierSensitivity) best = best
  | [], _, _ => rfl
  | c :: t, best, h => by
    rw [List.foldl_cons, gridStep_empty evaluations mf detectOutliers outlierSensitivity
      best c h]
    exact foldl_gridStep_empty evaluations mf detectOutliers outlierSensitivity t best h

theorem gridValues_head_eq_zero (mx step : ℚ) :
    (gridValues 0 mx step).head? = some 0 := by
  unfold gridValues
  rw [List.range_succ_eq_map, List.map_cons, List.head?_cons]
  have h0 : (jsRound ((0 + ((0 : ℕ) : ℚ) * step) * 10) : ℚ) / 10 = 0 := by
    have : ((0 : ℚ) + ((0 : ℕ) : ℚ) * step) * 10 = 0 := by push_cast; ring
    rw [this]
    have hr : jsRound 0 = 0 := by
      unfold jsRound
      norm_num
    rw [hr]
    norm_num
  rw [h0]

theorem gridCombos_cons : ∃ t, gridCombos = (0, 0, 0) :: t := by
  have h5 := List.cons_head?_tail (Option.mem_def.mpr (gridValues_head_eq_zero 5 (1/5)))
  have h10 := List.cons_head?_tail (Option.mem_def.mpr (gridValues_head_eq_zero 10 (2/5)))
  unfold gridCombos
  rw [← h5, ← h10, List.flatMap_cons, List.flatMap_cons, List.map_cons, List.cons_append,
    List.cons_append]
  exact ⟨_, rfl⟩

/-- C4: on an empty exercise list `gridSearch` returns composite score 0 with
the first enumerated grid triple `{digits: 0, carryovers: 0, zeros: 0}` (every
candidate scores 0, the first strict improvement over the `-Infinity` incumbent
wins and no later candidate beats it), and in particular the initial incumbent
with the default weights `{1.0, 2.5, 0.5}` is not returned. -/
theorem gridSearch_empty_exercises (evaluations : List EvaluationRecord) (mf : ModeFilter)
    (detectOutliers : Bool) (outlierSensitivity : ℚ) :
    gridSearch [] evaluations mf detectOutliers outlierSensitivity =
        ⟨⟨0, 0, 0⟩, ⟨none, none, none⟩, ((0 : ℝ) : WithBot ℝ)⟩ ∧
      (gridSearch [] evaluations mf detectOutliers outlierSensitivity).weights ≠
        initialBest.weights := by
  obtain ⟨t, ht⟩ := gridCombos_cons
  have hres : gridSearch [] evaluations mf detectOutliers outlierSensitivity =
      ⟨⟨0, 0, 0⟩, ⟨none, none, none⟩, ((0 : ℝ) : WithBot ℝ)⟩ := by
    unfold gridSearch
    rw [ht, List.foldl_cons]
    have hstep : gridStep [] evaluations mf detectOutliers outlierSensitivity initialBest
        (0, 0, 0) = ⟨⟨0, 0, 0⟩, ⟨none, none, none⟩, ((0 : ℝ) : WithBot ℝ)⟩ := by
      unfold gridStep
      simp only [calculateCorrelationsForWeights_nil, calculateCompositeScore_none]
      have hlt : initialBest.compositeScore < ((0 : ℝ) : WithBot ℝ) :=
        WithBot.bot_lt_coe 0
      rw [if_pos hlt]
    rw [hstep]
    exact foldl_gridStep_empty evaluations mf detectOutliers outlierSensitivity t _ rfl
  refine ⟨hres, ?_⟩
  rw [hres]
  intro h
  have hd := congrArg DifficultyWeights.digits h
  norm_num [initialBest] at hd

theorem map_sum_eq_range_sum {α : Type} (d : α) (f : α → ℝ) :
    ∀ l : List α, (l.map f).sum = ∑ i ∈ Finset.range l.length, f (l.getD i d)
  | [] => by simp
  | a :: t => by
    rw [List.map_cons, List.sum_cons, List.length_cons, Finset.sum_range_succ']
    simp only [List.getD_cons_succ, List.getD_cons_zero]
    rw [map_sum_eq_range_sum d f t]
    ring

theorem centered_sum_sq (m : ℕ) (x : ℕ → ℝ) :
    ∑ i ∈ Finset.range m, ((m : ℝ) * x i - ∑ j ∈ Finset.range m, x j) ^ 2 =
      (m : ℝ) * ((m : ℝ) * (∑ i ∈ Finset.range m, x i * x i) -
        (∑ i ∈ Finset.range m, x i) * (∑ i ∈ Finset.range m, x i)) := by
  have e1 : ∀ i ∈ Finset.range m,
      ((m : ℝ) * x i - ∑ j ∈ Finset.range m, x j) ^ 2 =
        (m : ℝ) ^ 2 * (x i * x i) -
          (2 * (m : ℝ) * ∑ j ∈ Finset.range m, x j) * x i +
          (∑ j ∈ Finset.range m, x j) ^ 2 := by
    intro i _
    ring
  rw [Finset.sum_congr rfl e1, Finset.sum_add_distrib, Finset.sum_sub_distrib,
    ← Finset.mul_sum, ← Finset.mul_sum, Finset.sum_const, Finset.card_range, nsmul_eq_mul]
  ring

theorem centered_sum_mul (m : ℕ) (x y : ℕ → ℝ) :
    ∑ i ∈ Finset.range m, (((m : ℝ) * x i - ∑ j ∈ Finset.range m, x j) *
        ((m : ℝ) * y i - ∑ j ∈ Finset.range m, y j)) =
      (m : ℝ) * ((m : ℝ) * (∑ i ∈ Finset.range m, x i * y i) -
        (∑ i ∈ Finset.range m, x i) * (∑ i ∈ Finset.range m, y i)) := by
  have e1 : ∀ i ∈ Finset.range m,
      ((m : ℝ) * x i - ∑ j ∈ Finset.range m, x j) *
          ((m : ℝ) * y i - ∑ j ∈ Finset.range m, y j) =
        (m : ℝ) ^ 2 * (x i * y i) -
          ((m : ℝ) * ∑ j ∈ Finset.range m, y j) * x i -
          ((m : ℝ) * ∑ j ∈ Finset.range m, x j) * y i +
          (∑ j ∈ Finset.range m, x j) * (∑ j ∈ Finset.range m, y j) := by
    intro i _
    ring
  rw [Finset.sum_congr rfl e1, Finset.sum_add_distrib, Finset.sum_sub_distrib,
    Finset.sum_sub_distrib, ← Finset.mul_sum, ← Finset.mul_sum, ← Finset.mul_sum,
    Finset.sum_const, Finset.card_range, nsmul_eq_mul]
  ring

theorem corr_num_sq_le (points : List DataPoint) (hm : 0 < points.length) :
    ((points.length : ℝ) * (points.map (fun p => (p.x : ℝ) * (p.y : ℝ))).sum -
        (points.map (fun p => (p.x : ℝ))).sum * (points.map (fun p => (p.y : ℝ))).sum) ^ 2 ≤
      ((points.length : ℝ) * (points.map (fun p => (p.x : ℝ) * (p.x : ℝ))).sum -
          (points.map (fun p => (p.x : ℝ))).sum * (points.map (fun p => (p.x : ℝ))).sum) *
        ((points.length : ℝ) * (points.map (fun p => (p.y : ℝ) * (p.y : ℝ))).sum -
          (points.map (fun p => (p.y : ℝ))).sum * (points.map (fun p => (p.y : ℝ))).sum) := by
  have hx := map_sum_eq_range_sum (⟨0, 0, false⟩ : DataPoint) (fun p => (p.x : ℝ)) points
  have hy := map_sum_eq_range_sum (⟨0, 0, false⟩ : DataPoint) (fun p => (p.y : ℝ)) points
  have hxy := map_sum_eq_range_sum (⟨0, 0, false⟩ : DataPoint)
    (fun p => (p.x : ℝ) * (p.y : ℝ)) points
  have hxx := map_sum_eq_range_sum (⟨0, 0, false⟩ : DataPoint)
    (fun p => (p.x : ℝ) * (p.x : ℝ)) points
  have hyy := map_sum_eq_range_sum (⟨0, 0, false⟩ : DataPoint)
    (fun p => (p.y : ℝ) * (p.y : ℝ)) points
  simp only at hx hy hxy hxx hyy
  rw [hx, hy, hxy, hxx, hyy]
  have cs := Finset.sum_mul_sq_le_sq_mul_sq (Finset.range points.length)
    (fun i => (points.length : ℝ) * ((points.getD i ⟨0, 0, false⟩).x : ℝ) -
      ∑ j ∈ Finset.range points.length, ((points.getD j ⟨0, 0, false⟩).x : ℝ))
    (fun i => (points.length : ℝ) * ((points.getD i ⟨0, 0, false⟩).y : ℝ) -
      ∑ j ∈ Finset.range points.length, ((points.getD j ⟨0, 0, false⟩).y : ℝ))
  simp only at cs
  rw [centered_sum_mul points.length (fun i => ((points.getD i ⟨0, 0, false⟩).x : ℝ))
      (fun i => ((points.getD i ⟨0, 0, false⟩).y : ℝ)),
    centered_sum_sq points.length (fun i => ((points.getD i ⟨0, 0, false⟩).x : ℝ)),
    centered_sum_sq points.length (fun i => ((points.getD i ⟨0, 0, false⟩).y : ℝ))] at cs
  have hmr : (0 : ℝ) < ((points.length : ℕ) : ℝ) ^ 2 := by positivity
  nlinarith [cs, hmr]

theorem div_sqrt_mem_Icc (num D r : ℝ) (hnum : num ^ 2 ≤ D)
    (hden : Real.sqrt D ≠ 0) (h : num / Real.sqrt D = r) : -1 ≤ r ∧ r ≤ 1 := by
  have hD : 0 < D := by
    rcases le_or_lt D 0 with hle | hgt
    · exact absurd (Real.sqrt_eq_zero'.mpr hle) hden
    · exact hgt
  have hden_pos : 0 < Real.sqrt D := Real.sqrt_pos.mpr hD
  have habs : |num| ≤ Real.sqrt D := by
    have h1 : |num| = Real.sqrt (num ^ 2) := (Real.sqrt_sq_eq_abs num).symm
    rw [h1]
    exact Real.sqrt_le_sqrt hnum
  have hr : |r| ≤ 1 := by
    rw [← h, abs_div, abs_of_pos hden_pos]
    exact (div_le_one hden_pos).mpr habs
  exact abs_le.mp hr

/-- C10: whenever `calculateCorrelation` returns a value, that value lies in
`[-1, 1]`: by the Cauchy–Schwarz inequality the numerator's square is at most
the product under the square root, so dividing by the (nonzero) square root
keeps the absolute value at most 1. -/
theorem calculateCorrelation_bounded (points : List DataPoint) (r : ℝ)
    (h : calculateCorrelation points = some r) : -1 ≤ r ∧ r ≤ 1 := by
  unfold calculateCorrelation at h
  by_cases h2 : points.length < 2
  · rw [if_pos h2] at h
    exact absurd h (by simp)
  rw [if_neg h2] at h
  simp only [] at h
  split_ifs at h with hden
  rw [Option.some_inj] at h
  exact div_sqrt_mem_Icc _ _ r (corr_num_sq_le points (by omega)) hden h

/-- Witness for C10 at the two points `(0,0)` and `(1,1)`, whose correlation
evaluates to exactly `1`. -/
theorem calculateCorrelation_bounded_witness :
    calculateCorrelation [⟨0, 0, false⟩, ⟨1, 1, false⟩] = some 1 ∧
      (-1 ≤ (1 : ℝ) ∧ (1 : ℝ) ≤ 1) := by
  have hc : calculateCorrelation [⟨0, 0, false⟩, ⟨1, 1, false⟩] = some 1 := by
    unfold calculateCorrelation
    norm_num [Real.sqrt_one]
  exact ⟨hc, calculateCorrelation_bounded _ 1 hc⟩
